import Mathlib

namespace Vuefinder

/-!
# Verification of the vuefinder WSGI routing and operation layer

A shallow embedding of `src/vuefinder/__init__.py`: the adapter registry
(`add_fs` / `remove_fs` / `clear` / `_get_adapter`), virtual-path resolution
(`_abspath` / `_split_path`), the dispatcher (`dispatch_request`), the listing
sort of `_index` / `_search`, the resource projection
(`to_vuefinder_resource`), and the mutating handlers (`_rename`, `_transfer`,
`_archive`, `_unarchive`), together with theorems settling the specification
claims.

Python strings are embedded as Lean `String`s; where a Python string
operation is not kernel-reducible through Lean's byte-based `String`
primitives, it is defined over the underlying character list (`String.data`),
which has the same semantics (Python `str` comparison and slicing are
code-point based).

Filesystems (the pyfilesystem `FS` objects the app drives) are embedded as
association lists from absolute path strings to nodes; the multi-adapter
"world" is an association list from adapter keys to filesystems, mirroring
how the app aliases a mutable `FS` object per registered key.
-/

/-! ## Python dict semantics

`VuefinderApp._adapters` is an `OrderedDict`, and the in-memory filesystem is
keyed storage as well.  An insertion-ordered dict is an association list with
unique keys: assignment updates in place or appends, `pop` removes. -/

def dictGet {α : Type} (l : List (String × α)) (k : String) : Option α :=
  (l.find? (fun e => e.1 == k)).map (fun e => e.2)

def dictSet {α : Type} : List (String × α) → String → α → List (String × α)
  | [], k, v => [(k, v)]
  | e :: rest, k, v => if e.1 == k then (k, v) :: rest else e :: dictSet rest k v

def dictPop {α : Type} (l : List (String × α)) (k : String) : List (String × α) :=
  l.filter (fun e => !(e.1 == k))

/-! ## Python string helpers -/

/-- Python `str.split(sep)` for a single-character separator, over character
lists.  Always returns a non-empty list of groups. -/
def splitChar (sep : Char) : List Char → List (List Char)
  | [] => [[]]
  | c :: cs =>
    match splitChar sep cs with
    | [] => [[c]]
    | g :: gs => if c = sep then [] :: g :: gs else (c :: g) :: gs

/-- Python `path.split(":/")`: split on the two-character scheme separator,
scanning left to right. -/
def splitCS : List Char → List (List Char)
  | [] => [[]]
  | ':' :: '/' :: cs => [] :: splitCS cs
  | c :: cs =>
    match splitCS cs with
    | [] => [[c]]
    | g :: gs => (c :: g) :: gs

/-- Python `":/" in path`. -/
def containsCS : List Char → Bool
  | [] => false
  | ':' :: '/' :: _ => true
  | _ :: cs => containsCS cs

/-- Embeds `hay.startswith(needle)` on character lists (arguments: hay, needle). -/
def startsWithL : List Char → List Char → Bool
  | _, [] => true
  | [], _ :: _ => false
  | a :: as, b :: bs => a == b && startsWithL as bs

/-- Python `needle in hay` substring containment (case sensitive). -/
def containsSub (needle : List Char) : List Char → Bool
  | [] => needle.isEmpty
  | hay@(_ :: rest) => startsWithL hay needle || containsSub needle rest

/-- Python `str.lower()` (restricted to the ASCII case mapping of
`Char.toLower`, which covers every name the claims touch). -/
def pyLower (s : String) : List Char := s.data.map Char.toLower

/-- Embeds `s.startswith(p)` at string level. -/
def pyStartsWith (s p : String) : Bool := startsWithL s.data p.data

/-- Embeds `s.lstrip("/")`. -/
def lstripSlash (s : String) : String := ⟨s.data.dropWhile (fun c => c = '/')⟩

/-- Embeds `s.rstrip("/")`. -/
def rstripSlash (s : String) : String := ⟨(s.data.reverse.dropWhile (fun c => c = '/')).reverse⟩

/-- Embeds `s[n:]` (character based, as in Python). -/
def pyDrop (s : String) (n : Nat) : String := ⟨s.data.drop n⟩

/-! ## The adapter registry

`VuefinderApp.__init__` keeps `self._adapters` (an `OrderedDict` of key →
`FS`) and `self._default` (an `Adapter`, i.e. a key/fs pair, or `None`).
Filesystems are identified by opaque `Nat` ids at this level - registry code
never looks inside them. -/

structure RegState where
  adapters : List (String × Nat)
  dflt : Option (String × Nat)
deriving DecidableEq

/-- Embeds `VuefinderApp.add_fs`: dict assignment, then
`if len(self._adapters) == 1: self._default = Adapter(key, fs)`. -/
def add_fs (s : RegState) (key : String) (fs : Nat) : RegState :=
  let ad := dictSet s.adapters key fs
  { adapters := ad, dflt := if ad.length = 1 then some (key, fs) else s.dflt }

/-- Embeds `VuefinderApp.remove_fs`: `self._adapters.pop(key, None)`. -/
def remove_fs (s : RegState) (key : String) : RegState :=
  { adapters := dictPop s.adapters key, dflt := s.dflt }

/-- Embeds `VuefinderApp.clear`: `self._adapters = OrderedDict()`. -/
def clear (s : RegState) : RegState :=
  { adapters := [], dflt := s.dflt }

/-- Embeds `VuefinderApp._get_adapter`: the request's `adapter` query parameter
(`none` when absent) selects a registered adapter, else the default. -/
def _get_adapter (s : RegState) (key? : Option String) : Option (String × Nat) :=
  match key? with
  | some key =>
    match dictGet s.adapters key with
    | some fs => some (key, fs)
    | none => s.dflt
  | none => s.dflt

inductive RegOp where
  | add (key : String) (fs : Nat)
  | remove (key : String)
  | clearOp
deriving DecidableEq

def applyOp (s : RegState) : RegOp → RegState
  | .add k f => add_fs s k f
  | .remove k => remove_fs s k
  | .clearOp => clear s

def applyOps (s : RegState) (ops : List RegOp) : RegState := ops.foldl applyOp s

def isAdd : RegOp → Bool
  | .add _ _ => true
  | _ => false

/-! ## Virtual-path resolution -/

/-- Embeds `fs.path.abspath`: prepend a leading slash when missing. -/
def fsAbspath (p : String) : String := if pyStartsWith p "/" then p else "/" ++ p

/-- Element `i` of a Python list, where the caller has ensured it exists
(guarded by the `":/" in path` test at every call site). -/
def pyElem (parts : List (List Char)) (i : Nat) : String := ⟨parts.getD i []⟩

/-- Embeds `VuefinderApp._abspath`: strip a `key:/` prefix if present, then make
absolute. -/
def _abspath (path : String) : String :=
  if containsCS path.data then fsAbspath (pyElem (splitCS path.data) 1)
  else fsAbspath path

/-- Embeds `VuefinderApp._split_path`, at the level of adapter keys: resolves a
virtual path against a registry (here any association list keyed by adapter
key - only key membership matters) and a fallback adapter.  The source
returns the `FS` object `self._adapters.get(key, None) or fallback_fs`; the
embedding returns the key it aliases.  (The `fallback_fs = fallback_fs or
self._default.fs` line only matters for a `None` fallback, which no
modelled call site passes.) -/
def _split_path {α : Type} (adapters : List (String × α)) (fallbackKey : String)
    (path : String) : String × String :=
  if containsCS path.data = false then (fallbackKey, _abspath path)
  else
    let key := pyElem (splitCS path.data) 0
    ((dictGet adapters key).elim fallbackKey (fun _ => key), _abspath path)

/-- C1 counterexample state: add `"a"`, add `"b"`, remove `"a"`. -/
def regCex : RegState := remove_fs (add_fs (add_fs ⟨[], none⟩ "a" 0) "b" 1) "a"

/-! ## The dispatcher

`dispatch_request` short-circuits `OPTIONS`, builds the dispatch key
`request.method + ":" + request.args.get("q")`, rejects unregistered keys
with a bare `raise BadRequest()` *outside* the `try`, invokes the handler,
and converts `FSError` / `BadRequest` raised *by the handler* into JSON
error responses.  Handlers are abstracted as an outcome per dispatch key;
a Python exception escaping `dispatch_request` is an `Except.error`. -/

inductive JVal where
  | s (v : String)
  | b (v : Bool)
deriving DecidableEq

inductive RBody where
  | empty
  | json (fields : List (String × JVal))
deriving DecidableEq

structure Resp where
  status : Nat
  headers : List (String × String)
  body : RBody
deriving DecidableEq

/-- Embeds `json_response(response, status)` (mimetype / content-length header
bookkeeping, which no claim mentions, is elided). -/
def json_response (fields : List (String × JVal)) (status : Nat) : Resp :=
  { status := status, headers := [], body := RBody.json fields }

/-- Python exceptions that can escape `dispatch_request` uncaught. -/
inductive PyExc where
  | typeError
  | badRequest (desc : Option String)
deriving DecidableEq

/-- What the matched handler does: return a response, raise an `FSError`,
raise a `BadRequest`, or raise anything else (which the `except` clauses do
not catch). -/
inductive HOutcome where
  | ok (r : Resp)
  | fsError (msg : String)
  | badReq (desc : String)
  | raises (e : PyExc)

def corsHeaders : List (String × String) :=
  [("Access-Control-Allow-Origin", "*"), ("Access-Control-Allow-Headers", "*")]

/-- The keys of `self.endpoints`. -/
def endpoints : List String :=
  ["GET:index", "GET:preview", "GET:subfolders", "GET:download",
   "GET:download_archive", "GET:search", "POST:newfolder", "POST:newfile",
   "POST:rename", "POST:move", "POST:copy", "POST:delete", "POST:upload",
   "POST:archive", "POST:unarchive", "POST:save"]

/-- Embeds `response.headers.extend(headers)`. -/
def extendHeaders (r : Resp) (hs : List (String × String)) : Resp :=
  { r with headers := r.headers ++ hs }

/-- Embeds `{"message": ..., "status": False}`. -/
def errFields (msg : String) : List (String × JVal) :=
  [("message", JVal.s msg), ("status", JVal.b false)]

/-- Embeds `VuefinderApp.dispatch_request`.  `q` is `request.args.get("q")`
(`none` when the query parameter is missing); `run` is the handler table
invocation.  `request.method + ":" + None` is a Python `TypeError`. -/
def dispatch_request (cors : Bool) (method : String) (q : Option String)
    (run : String → HOutcome) : Except PyExc Resp :=
  let headers := if cors then corsHeaders else []
  if method = "OPTIONS" then
    .ok { status := 200, headers := headers, body := RBody.empty }
  else
    match q with
    | none => .error PyExc.typeError
    | some act =>
      let endpoint := method ++ ":" ++ act
      if endpoints.contains endpoint then
        match run endpoint with
        | .ok r => .ok (extendHeaders r headers)
        | .fsError m => .ok (extendHeaders (json_response (errFields m) 400) headers)
        | .badReq d => .ok (extendHeaders (json_response (errFields d) 400) headers)
        | .raises e => .error e
      else .error (PyExc.badRequest none)

/-! ## Directory listings: metadata records, filtering and sorting

`_index` materialises `fs.scandir(path)` into a list of `Info` records,
optionally filters by substring (`_search`), and sorts with
`infos.sort(key=lambda i: ("0_" if i.is_dir else "1_") + i.name.lower())`.
Python compares `str` sort keys lexicographically by code point, which is
exactly the lexicographic order on their character lists, so sort keys are
embedded as `List Char`.  `list.sort` is a stable sort by key; so is
`List.insertionSort` with the key-based relation. -/

structure Info where
  name : String
  is_dir : Bool
  modified : Option Nat
  size : Option Nat
  raw : String
deriving DecidableEq

/-- The sort key `("0_" if i.is_dir else "1_") + i.name.lower()`. -/
def sortKey (i : Info) : List Char :=
  (if i.is_dir then "0_" else "1_").data ++ pyLower i.name

def keyLe (a b : Info) : Prop := sortKey a ≤ sortKey b

instance : DecidableRel keyLe :=
  fun a b => inferInstanceAs (Decidable (sortKey a ≤ sortKey b))

instance : IsTotal Info keyLe := ⟨fun a b => le_total (sortKey a) (sortKey b)⟩

instance : IsTrans Info keyLe := ⟨fun _ _ _ h1 h2 => le_trans h1 h2⟩

instance : IsAntisymm Info (fun a b => sortKey a < sortKey b) :=
  ⟨fun _ _ h1 h2 => absurd (lt_trans h1 h2) (lt_irrefl _)⟩

/-- Embeds `infos.sort(key=...)`: stable sort by `sortKey`. -/
def indexSort (l : List Info) : List Info := List.insertionSort keyLe l

/-- The `_index` listing pipeline after `scandir`: the optional substring
filter (`if filter: ... if filter in info.name`), then the sort.  `_search`
is `_index` with `filter = request.args.get("filter", None)`. -/
def indexInfos (filter? : Option String) (infos : List Info) : List Info :=
  indexSort
    (match filter? with
     | some f =>
       if f = "" then infos
       else infos.filter (fun i => containsSub f.data i.name.data)
     | none => infos)

/-- The spec's example listing (§8) in one backend enumeration order. -/
def wL : List Info :=
  [Info.mk "zz.txt" false none none "", Info.mk "bar.txt" false none none "",
   Info.mk "foobar" true none none "", Info.mk "foo" true none none ""]

/-- The same entries in another enumeration order. -/
def wL₂ : List Info :=
  [Info.mk "foo" true none none "", Info.mk "zz.txt" false none none "",
   Info.mk "foobar" true none none "", Info.mk "bar.txt" false none none ""]

/-! ## The resource projection -/

structure Resource where
  type : String
  path : String
  visibility : String
  last_modified : Option Nat
  mime_type : Option String
  basename : String
  extension : String
  storage : String
  file_size : Option Nat
  raw : Option String
deriving DecidableEq

/-- Embeds `to_vuefinder_resource(storage, path, info, include_raw)`.
`mimetypes.guess_type` is an external library call, passed in as
`guessMime`. -/
def to_vuefinder_resource (guessMime : String → Option String)
    (storage : String) (path : String) (info : Info) (include_raw : Bool) : Resource :=
  let path := if path = "/" then "" else path
  { type := if info.is_dir then "dir" else "file",
    path := storage ++ ":/" ++ path ++ "/" ++ info.name,
    visibility := "public",
    last_modified := info.modified,
    mime_type := guessMime info.name,
    basename := info.name,
    extension := ⟨(splitChar '.' info.name.data).getLastD []⟩,
    storage := storage,
    file_size := info.size,
    raw := if include_raw then some info.raw else none }

/-! ## Filesystems and the adapter world

A filesystem is an association list from absolute path strings to nodes; a
node is a regular file with text content, a directory, or a zip archive
file whose byte content encodes a filesystem image (what `ZipFS` reads back
out of it).  The "world" maps adapter keys to filesystems, mirroring the
aliasing of mutable `FS` objects: every access goes through the key.
Operations that raise in Python (`fs.errors`) return `Except.error`. -/

inductive Node where
  | file (content : String)
  | dir
  | zipf (entries : List (String × Node))

abbrev FSt := List (String × Node)

abbrev World := List (String × FSt)

/-- Embeds `s.endswith(p)`. -/
def pyEndsWith (s p : String) : Bool := startsWithL s.data.reverse p.data.reverse

/-- Embeds `fs.path.join(a, b)` for the shapes the app passes (a directory and a
name, or an absolute second component, which resets the result). -/
def fsJoin (a b : String) : String :=
  if pyStartsWith b "/" then b
  else if pyEndsWith a "/" then a ++ b
  else a ++ "/" ++ b

/-- Embeds `fs.path.combine(path1, path2)`. -/
def pyCombine (a b : String) : String :=
  if a = "" then lstripSlash b else rstripSlash a ++ "/" ++ b

/-- Embeds `fs.path.basename`: everything after the last `/` (the whole path when
there is no `/`). -/
def fsBasename (p : String) : String := ⟨(splitChar '/' p.data).getLastD []⟩

/-- Is `key` strictly inside the directory `sp`? -/
def isUnder (sp key : String) : Bool :=
  if sp == "/" then pyStartsWith key "/" && !(key == "/")
  else pyStartsWith key (sp ++ "/")

/-- Is `key` an immediate child of the directory `path`? -/
def isChildOf (path key : String) : Bool :=
  isUnder path key && !((lstripSlash (pyDrop key path.length)).data.contains '/')

/-- Rebase a path under `sp` to the corresponding path under `dp`. -/
def rebaseKey (sp dp key : String) : String :=
  fsJoin dp (lstripSlash (pyDrop key sp.length))

/-- Embeds `fs.isdir(path)` (the root always exists and is a directory). -/
def fsIsDir (fs : FSt) (p : String) : Bool :=
  p == "/" ||
    (match dictGet fs p with
     | some Node.dir => true
     | _ => false)

/-- Embeds `fs.exists(path)`. -/
def fsExists (fs : FSt) (p : String) : Bool := p == "/" || (dictGet fs p).isSome

/-- The filesystem currently registered under adapter key `k`. -/
def wGet (w : World) (k : String) : FSt := (dictGet w k).getD []

def wSet (w : World) (k : String) (fs : FSt) : World := dictSet w k fs

/-- Embeds `fs.copy.copy_file(src_fs, src_path, dst_fs, dst_path)`: read the source
file node, write it at the destination path. -/
def copy_file (w : World) (sk sp dk dp : String) : Except String World :=
  match dictGet (wGet w sk) sp with
  | some Node.dir => .error "FileExpected"
  | some n => .ok (wSet w dk (dictSet (wGet w dk) dp n))
  | none => .error "ResourceNotFound"

/-- Embeds `fs.move.move_file`: copy, then remove the source. -/
def move_file (w : World) (sk sp dk dp : String) : Except String World :=
  (copy_file w sk sp dk dp).map (fun w1 => wSet w1 sk (dictPop (wGet w1 sk) sp))

/-- Copy every entry under `sp` in `src` onto the corresponding path under
`dp` in `dst`, creating the destination directory. -/
def copyTreeInto (src : FSt) (sp : String) (dst : FSt) (dp : String) : FSt :=
  (src.filter (fun e => isUnder sp e.1)).foldl
    (fun d e => dictSet d (rebaseKey sp dp e.1) e.2) (dictSet dst dp Node.dir)

/-- Embeds `fs.copy.copy_dir`. -/
def copy_dir (w : World) (sk sp dk dp : String) : Except String World :=
  if fsIsDir (wGet w sk) sp then
    .ok (wSet w dk (copyTreeInto (wGet w sk) sp (wGet w dk) dp))
  else .error "DirectoryExpected"

/-- Embeds `fs.removetree(path)`. -/
def removeTree (fs : FSt) (p : String) : FSt :=
  fs.filter (fun e => !(e.1 == p || isUnder p e.1))

/-- Embeds `fs.move.move_dir`: copy the subtree, then remove the source tree. -/
def move_dir (w : World) (sk sp dk dp : String) : Except String World :=
  (copy_dir w sk sp dk dp).map (fun w1 => wSet w1 sk (removeTree (wGet w1 sk) sp))

/-- One `{path, type}` entry of a transfer request's `items`. -/
structure TItem where
  path : String
  typ : String
deriving DecidableEq

/-- The `for item in payload.get("items", [])` loop body of
`VuefinderApp._transfer`: resolve the source, compute
`fspath.combine(dst_dir, fspath.basename(src_path))`, then pick the
directory or file transfer by `src_fs.isdir(src_path)`. -/
def transferLoop (mv : Bool) (fbKey dk ddir : String) :
    World → List TItem → Except String World
  | w, [] => .ok w
  | w, it :: rest =>
    let s := _split_path w fbKey it.path
    let dp := pyCombine ddir (fsBasename s.2)
    match (if fsIsDir (wGet w s.1) s.2 then
             (if mv then move_dir else copy_dir) w s.1 s.2 dk dp
           else
             (if mv then move_file else copy_file) w s.1 s.2 dk dp) with
    | .ok w1 => transferLoop mv fbKey dk ddir w1 rest
    | .error e => .error e

/-- Embeds `VuefinderApp._transfer` (`mv` selects `move.move_dir`/`move.move_file`
versus `copy.copy_dir`/`copy.copy_file`): the destination adapter and
directory are resolved once from the request's `item`, each entry of
`items` is then transferred in order.  `fbKey` is the request's resolved
adapter (the `fs` of `self.delegate(request)`). -/
def _transfer (mv : Bool) (w : World) (fbKey item : String) (items : List TItem) :
    Except String World :=
  let dd := _split_path w fbKey item
  transferLoop mv fbKey dd.1 dd.2 w items

/-- Modelled from the spec's own words, for comparison with the source (claim
C6): a transfer that chooses the directory-subtree versus single-file
transfer "depending on the item's declared type" instead of asking the
source filesystem. -/
def transferByTypeLoop (mv : Bool) (fbKey dk ddir : String) :
    World → List TItem → Except String World
  | w, [] => .ok w
  | w, it :: rest =>
    let s := _split_path w fbKey it.path
    let dp := pyCombine ddir (fsBasename s.2)
    match (if it.typ == "dir" then
             (if mv then move_dir else copy_dir) w s.1 s.2 dk dp
           else
             (if mv then move_file else copy_file) w s.1 s.2 dk dp) with
    | .ok w1 => transferByTypeLoop mv fbKey dk ddir w1 rest
    | .error e => .error e

/-- The spec-worded transfer (see `transferByTypeLoop`). -/
def transferByType (mv : Bool) (w : World) (fbKey item : String) (items : List TItem) :
    Except String World :=
  let dd := _split_path w fbKey item
  transferByTypeLoop mv fbKey dd.1 dd.2 w items

/-- Embeds `fs.scandir(path)` materialised: one `Info` per immediate child, in
backend (here: association list) order. -/
def scandirInfos (fs : FSt) (path : String) : List Info :=
  (fs.filter (fun e => isChildOf path e.1)).map
    (fun e =>
      Info.mk (fsBasename e.1)
        (match e.2 with | Node.dir => true | _ => false)
        none
        (match e.2 with | Node.file c => some c.length | _ => none)
        "")

/-- Modelled from the spec: `_rename` calls a private helper `self.__move`
(name-mangled `_VuefinderApp__move`) whose definition is not present under
`src/`.  Per the spec, Rename is "equivalent to a same-adapter transfer of
one item to `<resolved-dir>/<new-name>`", so the helper resolves the
requested item to an absolute path on the same filesystem and performs the
directory-subtree or single-file move. -/
def renameMove (fs : FSt) (item dst : String) : Except String FSt :=
  let src := _abspath item
  if fsIsDir fs src then
    .ok (removeTree (copyTreeInto fs src fs dst) src)
  else
    match dictGet fs src with
    | some n => .ok (dictPop (dictSet fs dst n) src)
    | none => .error "ResourceNotFound"

/-- Embeds `VuefinderApp._rename`: move the requested item to
`fspath.join(path, name)` on the request's adapter, then return the
`_index` listing of the (post-move) resolved directory. -/
def _rename (fs : FSt) (path item name : String) : Except String (FSt × List Info) :=
  (renameMove fs item (fsJoin path name)).map
    (fun fs1 => (fs1, indexInfos none (scandirInfos fs1 path)))

/-! ## Archive and unarchive -/

def countChar (c : Char) (s : String) : Nat := s.data.count c

/-- Embeds `fs.path.splitext(name)[1]` for the plain (slash-free, validated)
filenames `_get_filename` passes it: empty for a dotless name or a
leading-dot-only name, else `"." + suffix-after-last-dot`. -/
def splitextExt (name : String) : String :=
  if pyStartsWith name "." && countChar '.' name == 1 then ""
  else if countChar '.' name == 0 then ""
  else "." ++ ⟨(splitChar '.' name.data).getLastD []⟩

/-- Embeds `VuefinderApp._get_filename`: `None` or an invalid name raises
`BadRequest("Invalid archive name")` (here `none`); otherwise the forced
extension is appended when missing.  `is_valid_filename` is an external
library call, passed in as `isValid`. -/
def _get_filename (isValid : String → Bool) (name? : Option String) (ext : String) :
    Option String :=
  match name? with
  | none => none
  | some name =>
    if isValid name = false then none
    else
      some (if pyStartsWith ext "." && !(splitextExt name == ext) then name ++ ext
            else name)

/-- Embeds `[fspath.join(path, name) for name in fs.listdir(path)]`. -/
def listdirJoined (fs : FSt) (p : String) : List String :=
  (fs.filter (fun e => isChildOf p e.1)).map (fun e => fsJoin p (fsBasename e.1))

/-- Embeds `fs.path.relativefrom(base, path)` for a path under `base`. -/
def relativefrom (base p : String) : String :=
  lstripSlash (pyDrop p (rstripSlash base).length)

/-- Embeds `VuefinderApp._write_zip`: depth-first stack traversal (`paths.pop()`
pops the last element; children are prepended).  The recursion is paced by
an explicit fuel, generously provisioned by the caller; `ZipFS` stores
entries under normalised absolute names. -/
def _write_zip (fs : FSt) : Nat → FSt → List String → String → FSt
  | 0, zip, _, _ => zip
  | _ + 1, zip, [], _ => zip
  | fuel + 1, zip, q :: qs, base =>
    let p := (q :: qs).getLastD q
    let rest := (q :: qs).dropLast
    let dst := fsAbspath (relativefrom base p)
    if fsIsDir fs p then
      _write_zip fs fuel (dictSet zip dst Node.dir) (listdirJoined fs p ++ rest) base
    else
      match dictGet fs p with
      | some n => _write_zip fs fuel (dictSet zip dst n) rest base
      | none => _write_zip fs fuel zip rest base

/-- Embeds `VuefinderApp._archive`: validate the name, compute the item paths and
the archive path, refuse an existing destination, only then create the
archive file and stream the traversal into it. -/
def _archive (isValid : String → Bool) (fs : FSt) (path : String)
    (name? : Option String) (items : List String) : FSt × Option String :=
  match _get_filename isValid name? ".zip" with
  | none => (fs, some "Invalid archive name")
  | some name =>
    let paths := items.map _abspath
    let archive_path := fsJoin path name
    if fsExists fs archive_path then
      (fs, some ("Archive " ++ archive_path ++ " already exists"))
    else
      (dictSet fs archive_path
        (Node.zipf (_write_zip fs ((fs.length + items.length + 2) * (fs.length + 2))
          [] paths path)),
       none)

def isFileNode : Node → Bool
  | Node.dir => false
  | _ => true

/-- Embeds `walk.Walker().files(zip)`: every file entry of the archive. -/
def walkerFiles (z : FSt) : List String :=
  (z.filter (fun e => isFileNode e.2)).map (fun e => e.1)

/-- The pre-flight loop of `_unarchive`: for each file entry, raise
`BadRequest` when `fspath.join(path, fspath.relpath(file_path))` already
exists.  The loop only reads the destination filesystem. -/
def unarchiveCheck (fs : FSt) (path : String) : List String → Option String
  | [] => none
  | fp :: rest =>
    let dst := fsJoin path (lstripSlash fp)
    if fsExists fs dst then
      some ("File " ++ dst ++ " would be overridden by unarchive")
    else unarchiveCheck fs path rest

/-- Embeds `VuefinderApp._unarchive`: open the archive at the resolved item path as
a zip filesystem, run the pre-flight collision pass, and only on success
`copy.copy_dir(zip, "/", fs, path)`. -/
def _unarchive (fs : FSt) (path item : String) : FSt × Option String :=
  let archive_path := _abspath item
  match dictGet fs archive_path with
  | some (Node.zipf z) =>
    (match unarchiveCheck fs path (walkerFiles z) with
     | some err => (fs, some err)
     | none => (copyTreeInto z "/" fs path, none))
  | _ => (fs, some "ResourceNotFound")

/-- Concrete world for the C6 counterexample: adapter `a` holds one file,
adapter `b` is empty. -/
def cexW : World := [("a", [("/f.txt", Node.file "hi")]), ("b", [])]

/-- Concrete filesystem for the C2 witness. -/
def renameW : FSt := [("/foo", Node.dir), ("/foo/old.txt", Node.file "hi")]

/-- Concrete destination filesystem for the C3 witness: `/f.txt` exists and
collides with the archive's `/f.txt` entry. -/
def unzipW : FSt :=
  [("/f.txt", Node.file "old"), ("/out.zip", Node.zipf [("/f.txt", Node.file "new")])]

/-! ## Theorems

The claim theorems, their witnesses and counterexamples, and the helper
lemmas they rely on. -/

theorem dictGet_cons {α : Type} (e : String × α) (l : List (String × α)) (k : String) :
    dictGet (e :: l) k = if e.1 = k then some e.2 else dictGet l k := by
  by_cases h : e.1 = k <;> simp [dictGet, List.find?_cons, h]

theorem dictGet_dictSet_self {α : Type} (l : List (String × α)) (k : String) (v : α) :
    dictGet (dictSet l k v) k = some v := by
  induction l with
  | nil => simp [dictGet, dictSet]
  | cons e rest ih =>
    by_cases h : e.1 = k
    · simp [dictSet, h, dictGet_cons]
    · simp only [dictSet, beq_iff_eq, h, if_false]
      rw [dictGet_cons, if_neg h]
      exact ih

theorem dictGet_dictSet_ne {α : Type} (l : List (String × α)) (k k' : String) (v : α)
    (h : k' ≠ k) : dictGet (dictSet l k v) k' = dictGet l k' := by
  induction l with
  | nil => simp [dictGet, dictSet, List.find?_cons, Ne.symm h]
  | cons e rest ih =>
    by_cases he : e.1 = k
    · simp only [dictSet, beq_iff_eq, he, if_true]
      rw [dictGet_cons, dictGet_cons, if_neg (Ne.symm h), if_neg (he ▸ fun hc => h hc.symm)]
    · simp only [dictSet, beq_iff_eq, he, if_false]
      rw [dictGet_cons, dictGet_cons, ih]

theorem dictPop_cons {α : Type} (e : String × α) (l : List (String × α)) (k : String) :
    dictPop (e :: l) k = if e.1 = k then dictPop l k else e :: dictPop l k := by
  by_cases h : e.1 = k
  · simp [dictPop, List.filter, h]
  · have hb : (e.1 == k) = false := beq_eq_false_iff_ne.mpr h
    simp [dictPop, List.filter, hb, h]

theorem dictGet_dictPop_self {α : Type} (l : List (String × α)) (k : String) :
    dictGet (dictPop l k) k = none := by
  induction l with
  | nil => simp [dictGet, dictPop]
  | cons e rest ih =>
    rw [dictPop_cons]
    by_cases h : e.1 = k
    · simpa [h] using ih
    · rw [if_neg h, dictGet_cons, if_neg h]
      exact ih

theorem dictGet_dictPop_ne {α : Type} (l : List (String × α)) (k k' : String)
    (h : k' ≠ k) : dictGet (dictPop l k) k' = dictGet l k' := by
  induction l with
  | nil => simp [dictGet, dictPop]
  | cons e rest ih =>
    rw [dictPop_cons, dictGet_cons]
    by_cases he : e.1 = k
    · rw [if_pos he, if_neg (he ▸ fun hc => h hc.symm)]
      exact ih
    · rw [if_neg he, dictGet_cons, ih]

theorem dictSet_ne_nil {α : Type} (l : List (String × α)) (k : String) (v : α) :
    dictSet l k v ≠ [] := by
  cases l with
  | nil => simp [dictSet]
  | cons e rest =>
    simp only [dictSet]
    split <;> simp

theorem dictSet_length_eq_one_iff {α : Type} (l : List (String × α)) (k : String) (v : α) :
    (dictSet l k v).length = 1 ↔ (l = [] ∨ l.map Prod.fst = [k]) := by
  cases l with
  | nil => simp [dictSet]
  | cons e rest =>
    by_cases h : e.1 = k
    · constructor
      · intro hlen
        right
        simp only [dictSet, beq_iff_eq, h, if_true, List.length_cons] at hlen
        have hr : rest = [] := List.length_eq_zero.mp (by omega)
        simp [hr, h]
      · rintro (h1 | h1)
        · exact absurd h1 (by simp)
        · simp only [List.map_cons, List.cons.injEq] at h1
          have hr : rest = [] := List.map_eq_nil_iff.mp h1.2
          simp [dictSet, h, hr]
    · have h2 : 1 ≤ (dictSet rest k v).length := by
        cases hd : dictSet rest k v with
        | nil => exact absurd hd (dictSet_ne_nil rest k v)
        | cons _ _ => simp
      constructor
      · intro hlen
        simp only [dictSet, beq_iff_eq, h, if_false, List.length_cons] at hlen
        omega
      · rintro (h1 | h1)
        · exact absurd h1 (by simp)
        · simp only [List.map_cons, List.cons.injEq] at h1
          exact absurd h1.1 h

/-- Claim C1, counterexample.  The claim says that once `a1` is removed the
default becomes the oldest surviving adapter, that a non-empty registry's
default is always an adapter currently present in it, and that `clear()`
empties the default.  In the code `remove_fs` and `clear` never touch
`self._default`: after `add a; add b; remove a` the registry is `["b"]` but
the default is still the removed `("a", 0)`, and after `clear()` the default
is still `("a", 0)`. -/
theorem default_stale_after_remove_cex :
    regCex.adapters = [("b", 1)] ∧
    regCex.dflt = some ("a", 0) ∧
    dictGet regCex.adapters "a" = none ∧
    (clear regCex).adapters = [] ∧
    (clear regCex).dflt = some ("a", 0) := by
  refine ⟨rfl, rfl, rfl, rfl, rfl⟩

/-- Claim C1, amended.  The default is set exactly when an `add_fs` leaves the
dict with a single entry (in particular by the first add into an empty
registry), and it is never updated afterwards: `remove_fs` and `clear` -
indeed any sequence of non-`add` operations - leave the default untouched
(so it may go stale, pointing at an adapter no longer registered), while
`clear` empties only the registry. -/
theorem default_first_add_never_reselected (s : RegState) (ops : List RegOp)
    (k : String) (f : Nat) (hops : ∀ op ∈ ops, isAdd op = false) :
    (applyOps s ops).dflt = s.dflt ∧
    (add_fs s k f).dflt =
      (if s.adapters = [] ∨ s.adapters.map Prod.fst = [k] then some (k, f) else s.dflt) ∧
    (clear s).adapters = [] ∧ (clear s).dflt = s.dflt := by
  refine ⟨?_, ?_, rfl, rfl⟩
  · induction ops generalizing s with
    | nil => rfl
    | cons op rest ih =>
      have hop : isAdd op = false := hops op (List.mem_cons_self op rest)
      have hrest : ∀ op ∈ rest, isAdd op = false :=
        fun o ho => hops o (List.mem_cons_of_mem op ho)
      have hstep : (applyOp s op).dflt = s.dflt := by
        cases op with
        | add k' f' => simp [isAdd] at hop
        | remove k' => rfl
        | clearOp => rfl
      calc (applyOps s (op :: rest)).dflt
          = (applyOps (applyOp s op) rest).dflt := rfl
        _ = (applyOp s op).dflt := ih (applyOp s op) hrest
        _ = s.dflt := hstep
  · by_cases hc : s.adapters = [] ∨ s.adapters.map Prod.fst = [k]
    · rw [if_pos hc]
      show (if (dictSet s.adapters k f).length = 1 then some (k, f) else s.dflt) = _
      rw [if_pos ((dictSet_length_eq_one_iff s.adapters k f).mpr hc)]
    · rw [if_neg hc]
      show (if (dictSet s.adapters k f).length = 1 then some (k, f) else s.dflt) = _
      rw [if_neg (fun h1 => hc ((dictSet_length_eq_one_iff s.adapters k f).mp h1))]

/-- Witness for `default_first_add_never_reselected` at the concrete trace of
the counterexample followed by a clear. -/
theorem default_first_add_never_reselected_witness :
    (applyOps regCex [RegOp.remove "b", RegOp.clearOp]).dflt = regCex.dflt ∧
    (add_fs regCex "c" 2).dflt =
      (if regCex.adapters = [] ∨ regCex.adapters.map Prod.fst = ["c"] then some ("c", 2)
       else regCex.dflt) ∧
    (clear regCex).adapters = [] ∧ (clear regCex).dflt = regCex.dflt :=
  default_first_add_never_reselected regCex [RegOp.remove "b", RegOp.clearOp] "c" 2
    (by decide)

/-- Claim C4.  Resolving a virtual path with an unregistered adapter key never
fails: for any registry not containing `"unknownkey"` and any fallback,
`_split_path` returns the fallback adapter and the normalised remainder
`"/x"`. -/
theorem split_path_unknown_key_falls_back {α : Type}
    (adapters : List (String × α)) (fallbackKey : String)
    (h : dictGet adapters "unknownkey" = none) :
    _split_path adapters fallbackKey "unknownkey://x" = (fallbackKey, "/x") := by
  have hcs : containsCS ("unknownkey://x" : String).data = true := by decide
  rw [_split_path, hcs]
  simp only [Bool.true_eq_false, if_false]
  rw [show pyElem (splitCS ("unknownkey://x" : String).data) 0 = "unknownkey" from rfl, h]
  rfl

/-- Witness for `split_path_unknown_key_falls_back` on a one-adapter
registry. -/
theorem split_path_unknown_key_falls_back_witness :
    _split_path [("m1", 0)] "m1" "unknownkey://x" = ("m1", "/x") :=
  split_path_unknown_key_falls_back [("m1", 0)] "m1" rfl

/-- Claim C5, counterexample.  The claim says a malformed request with an
unregistered `(method, action)` dispatch key is *returned to the caller* as
a `{message, status: false}` JSON body with CORS headers merged in.  In the
code the `raise BadRequest()` for an unknown key sits *before* the
`try`/`except`, so the exception escapes `dispatch_request`: nothing is
returned, no JSON body is built and no CORS headers are attached. -/
theorem dispatch_unknown_endpoint_raises_cex :
    dispatch_request true "GET" (some "nope")
      (fun _ => HOutcome.ok (json_response [] 200)) =
    Except.error (PyExc.badRequest none) := rfl

/-- Claim C5, amended.  Errors raised *by the matched handler* (`FSError`,
`BadRequest`) are returned as a `{message, status: false}` JSON body with
HTTP status 400, and the CORS headers (when enabled) are merged into the
response on the `OPTIONS`, success, and handler-error paths; but an
unregistered `(method, action)` dispatch key makes `dispatch_request` raise
an uncaught `BadRequest` - no JSON body, no CORS headers - and any other
exception type raised by a handler escapes as well. -/
theorem dispatch_error_handling (cors : Bool) (method act : String)
    (run : String → HOutcome) (r : Resp) (m d : String) (e : PyExc) :
    (method = "OPTIONS" →
      dispatch_request cors method (some act) run =
        .ok { status := 200, headers := if cors then corsHeaders else [],
              body := RBody.empty }) ∧
    (method ≠ "OPTIONS" → endpoints.contains (method ++ ":" ++ act) = true →
      ((run (method ++ ":" ++ act) = .fsError m →
          dispatch_request cors method (some act) run =
            .ok { status := 400, headers := if cors then corsHeaders else [],
                  body := RBody.json (errFields m) }) ∧
       (run (method ++ ":" ++ act) = .badReq d →
          dispatch_request cors method (some act) run =
            .ok { status := 400, headers := if cors then corsHeaders else [],
                  body := RBody.json (errFields d) }) ∧
       (run (method ++ ":" ++ act) = .ok r →
          dispatch_request cors method (some act) run =
            .ok { r with headers := r.headers ++ (if cors then corsHeaders else []) }) ∧
       (run (method ++ ":" ++ act) = .raises e →
          dispatch_request cors method (some act) run = .error e))) ∧
    (method ≠ "OPTIONS" → endpoints.contains (method ++ ":" ++ act) = false →
      dispatch_request cors method (some act) run = .error (PyExc.badRequest none)) := by
  refine ⟨?_, ?_, ?_⟩
  · intro hm
    rw [dispatch_request, if_pos hm]
  · intro hm hin
    refine ⟨?_, ?_, ?_, ?_⟩ <;> intro hrun <;>
      rw [dispatch_request, if_neg hm] <;>
      simp only [hin, if_true, hrun] <;>
      simp [extendHeaders, json_response]
  · intro hm hout
    rw [dispatch_request, if_neg hm]
    simp only [hout, Bool.false_eq_true, if_false]

/-- Witness for `dispatch_error_handling`: a `POST:delete` request whose
handler raises an `FSError`, with CORS enabled. -/
theorem dispatch_error_handling_witness :
    dispatch_request true "POST" (some "delete") (fun _ => HOutcome.fsError "boom") =
      Except.ok { status := 400, headers := corsHeaders,
                  body := RBody.json (errFields "boom") } := by
  have h := (dispatch_error_handling true "POST" "delete"
      (fun _ => HOutcome.fsError "boom") (json_response [] 200) "boom" "d"
      PyExc.typeError).2.1 (by decide) (by decide)
  simpa using h.1 rfl

/-- Claim C10.  A non-`OPTIONS` request whose query string lacks the `q`
parameter makes `dispatch_request` raise an uncaught `TypeError` (string
concatenation with `None`): the caller gets neither a JSON error body nor
CORS headers. -/
theorem dispatch_missing_action_raises (cors : Bool) (method : String)
    (run : String → HOutcome) (h : method ≠ "OPTIONS") :
    dispatch_request cors method none run = Except.error PyExc.typeError := by
  rw [dispatch_request, if_neg h]

/-- Witness for `dispatch_missing_action_raises` at a `GET` request. -/
theorem dispatch_missing_action_raises_witness :
    dispatch_request true "GET" none (fun _ => HOutcome.ok (json_response [] 200)) =
      Except.error PyExc.typeError :=
  dispatch_missing_action_raises true "GET" (fun _ => HOutcome.ok (json_response [] 200))
    (by decide)

/-- Cancellation for the lexicographic order on character lists: a shared
head does not affect comparisons. -/
theorem cons_le_cons_iff_char (c : Char) (x y : List Char) : c :: x ≤ c :: y ↔ x ≤ y := by
  rw [← not_lt, ← not_lt]
  constructor <;> intro h hlt <;> apply h
  · exact List.Lex.cons hlt
  · exact List.Lex.cons_iff.mp hlt

/-- Cancellation for the lexicographic order on character lists: a shared
prefix does not affect comparisons. -/
theorem append_le_append_iff_char (p x y : List Char) : p ++ x ≤ p ++ y ↔ x ≤ y := by
  induction p with
  | nil => exact Iff.rfl
  | cons c p ih => rw [List.cons_append, List.cons_append, cons_le_cons_iff_char, ih]

/-- A file's sort key is strictly above every directory's sort key. -/
theorem sortKey_dir_lt_file (a b : Info) (ha : a.is_dir = false) (hb : b.is_dir = true) :
    sortKey b < sortKey a := by
  simp only [sortKey, ha, hb, if_true, if_false]
  exact List.Lex.rel (by decide)

/-- Claim C7, counterexample.  The claim calls the listing order "a stable
total order independent of the backend's enumeration order".  The sort key
is case-insensitive, and Python's `list.sort` is stable, so two names equal
up to case keep their backend enumeration order: the same directory
contents enumerated as `["A", "a"]` versus `["a", "A"]` produce different
listings. -/
theorem index_sort_backend_order_cex :
    List.Perm [Info.mk "A" false none none "", Info.mk "a" false none none ""]
      [Info.mk "a" false none none "", Info.mk "A" false none none ""] ∧
    indexSort [Info.mk "A" false none none "", Info.mk "a" false none none ""] ≠
      indexSort [Info.mk "a" false none none "", Info.mk "A" false none none ""] := by
  refine ⟨List.Perm.swap _ _ _, ?_⟩
  decide

/-- Claim C7, amended.  The `index`/`search` listing orders all directories
before all files and each tier case-insensitively lexicographically by
name, it is a permutation of the (filtered) input, and it is independent of
the backend's enumeration order *whenever no two entries share a sort key*
(i.e. no two same-tier names equal up to case); ties keep the backend
order, because the sort is stable.  `search` drops entries whose name does
not contain the case-sensitive substring filter, then sorts. -/
theorem index_search_sort_spec (l l₂ : List Info) (f : String)
    (hperm : List.Perm l l₂) (hkeys : (l.map sortKey).Nodup) (hf : f ≠ "") :
    List.Sorted keyLe (indexSort l) ∧
    (indexSort l).Pairwise (fun a b => b.is_dir = true → a.is_dir = true) ∧
    (indexSort l).Pairwise
      (fun a b => a.is_dir = b.is_dir → pyLower a.name ≤ pyLower b.name) ∧
    List.Perm (indexSort l) l ∧
    indexSort l = indexSort l₂ ∧
    indexInfos (some f) l = indexSort (l.filter (fun i => containsSub f.data i.name.data)) := by
  have hsorted : List.Sorted keyLe (indexSort l) := List.sorted_insertionSort keyLe l
  have hpermS : List.Perm (indexSort l) l := List.perm_insertionSort keyLe l
  refine ⟨hsorted, ?_, ?_, hpermS, ?_, ?_⟩
  · refine hsorted.imp ?_
    intro a b hab hb
    by_contra ha
    have ha' : a.is_dir = false := by
      cases h : a.is_dir
      · rfl
      · exact absurd h ha
    exact absurd hab (not_le.mpr (sortKey_dir_lt_file a b ha' hb))
  · refine hsorted.imp ?_
    intro a b hab heq
    have hkey : sortKey a ≤ sortKey b := hab
    rw [sortKey, sortKey, heq] at hkey
    cases h : b.is_dir <;> rw [h] at hkey <;>
      exact (append_le_append_iff_char _ _ _).mp hkey
  · -- determinism under distinct sort keys
    have hkeys₂ : (l₂.map sortKey).Nodup := ((hperm.map sortKey).nodup_iff).mp hkeys
    have hstrict : ∀ (m : List Info), (m.map sortKey).Nodup →
        List.Sorted (fun a b => sortKey a < sortKey b) (indexSort m) := by
      intro m hm
      have hs : List.Sorted keyLe (indexSort m) := List.sorted_insertionSort keyLe m
      have hnd : ((indexSort m).map sortKey).Nodup :=
        (((List.perm_insertionSort keyLe m).map sortKey).nodup_iff).mpr hm
      have hne : (indexSort m).Pairwise (fun a b => sortKey a ≠ sortKey b) :=
        List.pairwise_map.mp hnd
      exact (hs.and hne).imp (fun h => lt_of_le_of_ne h.1 h.2)
    exact List.eq_of_perm_of_sorted
      (hpermS.trans (hperm.trans (List.perm_insertionSort keyLe l₂).symm))
      (hstrict l hkeys) (hstrict l₂ hkeys₂)
  · rw [indexInfos, if_neg hf]

/-- Witness for `index_search_sort_spec`: the spec's own example directory
`{"zz.txt", "bar.txt", "foobar", "foo"}` in two enumeration orders, with
filter `"ba"`. -/
theorem index_search_sort_spec_witness :
    List.Sorted keyLe (indexSort wL) ∧
    (indexSort wL).Pairwise (fun a b => b.is_dir = true → a.is_dir = true) ∧
    (indexSort wL).Pairwise
      (fun a b => a.is_dir = b.is_dir → pyLower a.name ≤ pyLower b.name) ∧
    List.Perm (indexSort wL) wL ∧
    indexSort wL = indexSort wL₂ ∧
    indexInfos (some "ba") wL =
      indexSort (wL.filter (fun i => containsSub "ba".data i.name.data)) :=
  index_search_sort_spec wL wL₂ "ba" (by decide) (by decide) (by decide)

theorem splitChar_ne_nil (sep : Char) (l : List Char) : splitChar sep l ≠ [] := by
  cases l with
  | nil => simp [splitChar]
  | cons c cs =>
    rw [splitChar]
    cases splitChar sep cs with
    | nil => simp
    | cons g gs => by_cases hc : c = sep <;> simp [hc]

theorem splitChar_of_not_mem (sep : Char) (l : List Char) (h : sep ∉ l) :
    splitChar sep l = [l] := by
  induction l with
  | nil => rfl
  | cons c cs ih =>
    have hc : c ≠ sep := fun hc => h (hc ▸ List.mem_cons_self c cs)
    have hcs : sep ∉ cs := fun hm => h (List.mem_cons_of_mem c hm)
    rw [splitChar, ih hcs]
    simp [hc]

theorem two_le_splitChar_length (sep : Char) (l : List Char) (h : sep ∈ l) :
    2 ≤ (splitChar sep l).length := by
  induction l with
  | nil => exact absurd h (List.not_mem_nil sep)
  | cons c cs ih =>
    rw [splitChar]
    cases hd : splitChar sep cs with
    | nil => exact absurd hd (splitChar_ne_nil sep cs)
    | cons g gs =>
      by_cases hc : c = sep
      · simp [hc]
      · have hm : sep ∈ cs := by
          rcases List.mem_cons.mp h with h1 | h1
          · exact absurd h1.symm hc
          · exact h1
        have := ih hm
        rw [hd] at this
        simp only [hc, if_false]
        simpa using this

theorem splitChar_getLastD_append (sep : Char) (l₁ l₂ : List Char) :
    (splitChar sep (l₁ ++ sep :: l₂)).getLastD [] = (splitChar sep l₂).getLastD [] := by
  induction l₁ with
  | nil =>
    rw [List.nil_append, splitChar]
    cases hd : splitChar sep l₂ with
    | nil => exact absurd hd (splitChar_ne_nil sep l₂)
    | cons g gs => simp
  | cons c l₁ ih =>
    rw [List.cons_append, splitChar]
    cases hd : splitChar sep (l₁ ++ sep :: l₂) with
    | nil => exact absurd hd (splitChar_ne_nil sep _)
    | cons g gs =>
      have hlen : 2 ≤ (splitChar sep (l₁ ++ sep :: l₂)).length :=
        two_le_splitChar_length sep _ (by simp)
      rw [hd] at hlen
      cases gs with
      | nil => simp at hlen
      | cons g' gs' =>
        rw [← hd, ← ih, hd]
        by_cases hc : c = sep <;> simp [hc]

/-- Claim C8.  The resource projection is a pure function of the storage key,
containing path and metadata record: `full_path` is
`storage + ":/" + path + "/" + name` with a root containing path collapsed
to the empty string, and `extension` is the substring after the last `.` of
the name - the whole name when the name has no `.`. -/
theorem resource_projection_fields (guessMime : String → Option String)
    (storage path : String) (info : Info) (include_raw : Bool) :
    ((to_vuefinder_resource guessMime storage path info include_raw).path =
        storage ++ ":/" ++ (if path = "/" then "" else path) ++ "/" ++ info.name) ∧
    ('.' ∉ info.name.data →
      (to_vuefinder_resource guessMime storage path info include_raw).extension =
        info.name) ∧
    (∀ l₁ l₂ : List Char, info.name.data = l₁ ++ '.' :: l₂ → '.' ∉ l₂ →
      (to_vuefinder_resource guessMime storage path info include_raw).extension =
        ⟨l₂⟩) := by
  refine ⟨rfl, ?_, ?_⟩
  · intro h
    show (⟨(splitChar '.' info.name.data).getLastD []⟩ : String) = info.name
    rw [splitChar_of_not_mem '.' info.name.data h]
    simp
  · intro l₁ l₂ hname h2
    show (⟨(splitChar '.' info.name.data).getLastD []⟩ : String) = (⟨l₂⟩ : String)
    rw [hname, splitChar_getLastD_append, splitChar_of_not_mem '.' l₂ h2]
    simp

/-- Witness for `resource_projection_fields`: `archive.tar.gz` in the root
directory, and (for the no-dot branch) a file named `README`. -/
theorem resource_projection_fields_witness :
    ((to_vuefinder_resource (fun _ => none) "m1" "/"
        (Info.mk "archive.tar.gz" false none none "") false).path =
      "m1" ++ ":/" ++ (if ("/" : String) = "/" then "" else "/") ++ "/" ++ "archive.tar.gz") ∧
    (to_vuefinder_resource (fun _ => none) "m1" "/"
        (Info.mk "archive.tar.gz" false none none "") false).extension = "gz" ∧
    (to_vuefinder_resource (fun _ => none) "m1" "/"
        (Info.mk "README" false none none "") false).extension = "README" := by
  refine ⟨(resource_projection_fields (fun _ => none) "m1" "/"
      (Info.mk "archive.tar.gz" false none none "") false).1, ?_, ?_⟩
  · exact (resource_projection_fields (fun _ => none) "m1" "/"
      (Info.mk "archive.tar.gz" false none none "") false).2.2
      "archive.tar".data "gz".data (by decide) (by decide)
  · exact (resource_projection_fields (fun _ => none) "m1" "/"
      (Info.mk "README" false none none "") false).2.1 (by decide)

theorem wGet_wSet_self (w : World) (k : String) (fs : FSt) :
    wGet (wSet w k fs) k = fs := by
  rw [wGet, wSet, dictGet_dictSet_self]
  rfl

theorem wGet_wSet_ne (w : World) (k k' : String) (fs : FSt) (h : k' ≠ k) :
    wGet (wSet w k fs) k' = wGet w k' := by
  rw [wGet, wSet, dictGet_dictSet_ne _ _ _ _ h, wGet]

/-- A path holding a file node is not a directory. -/
theorem fsIsDir_eq_false_of_file (fs : FSt) (p c : String)
    (hf : dictGet fs p = some (Node.file c)) (hroot : p ≠ "/") :
    fsIsDir fs p = false := by
  simp [fsIsDir, hf, hroot]

/-- Claim C2 (spec-modelled `__move` helper, see `renameMove`).  A successful
rename of a file item places it at `fspath.join(path, name)` on the same
adapter, removes it from its old resolved path, and returns the `_index`
listing of the resolved directory in the post-move state. -/
theorem rename_moves_item (fs : FSt) (path item name c : String)
    (hfile : dictGet fs (_abspath item) = some (Node.file c))
    (hroot : _abspath item ≠ "/")
    (hne : _abspath item ≠ fsJoin path name) :
    ∃ fs', _rename fs path item name =
        Except.ok (fs', indexInfos none (scandirInfos fs' path)) ∧
      dictGet fs' (fsJoin path name) = some (Node.file c) ∧
      dictGet fs' (_abspath item) = none := by
  have hdir := fsIsDir_eq_false_of_file fs (_abspath item) c hfile hroot
  refine ⟨dictPop (dictSet fs (fsJoin path name) (Node.file c)) (_abspath item),
    ?_, ?_, ?_⟩
  · rw [_rename, renameMove]
    simp only [hdir, Bool.false_eq_true, if_false, hfile, Except.map]
  · rw [dictGet_dictPop_ne _ _ _ (Ne.symm hne), dictGet_dictSet_self]
  · exact dictGet_dictPop_self _ _

/-- Witness for `rename_moves_item`: rename `/foo/old.txt` to
`/foo/new.txt`. -/
theorem rename_moves_item_witness :
    ∃ fs', _rename renameW "/foo" "m1://foo/old.txt" "new.txt" =
        Except.ok (fs', indexInfos none (scandirInfos fs' "/foo")) ∧
      dictGet fs' (fsJoin "/foo" "new.txt") = some (Node.file "hi") ∧
      dictGet fs' (_abspath "m1://foo/old.txt") = none :=
  rename_moves_item renameW "/foo" "m1://foo/old.txt" "new.txt" "hi" rfl
    (by decide) (by decide)

/-- A collision in the entry list makes the pre-flight loop return an
error, and the loop itself never writes. -/
theorem unarchiveCheck_isSome_of_collision (fs : FSt) (path : String)
    (l : List String)
    (h : ∃ fp ∈ l, fsExists fs (fsJoin path (lstripSlash fp)) = true) :
    (unarchiveCheck fs path l).isSome = true := by
  induction l with
  | nil =>
    rcases h with ⟨fp, hm, _⟩
    exact absurd hm (List.not_mem_nil fp)
  | cons q rest ih =>
    rw [unarchiveCheck]
    by_cases hq : fsExists fs (fsJoin path (lstripSlash q)) = true
    · simp [hq]
    · rw [Bool.not_eq_true] at hq
      simp only [hq, Bool.false_eq_true, if_false]
      rcases h with ⟨fp, hm, hex⟩
      rcases List.mem_cons.mp hm with h1 | h1
      · subst h1
        rw [hex] at hq
        exact absurd hq (by simp)
      · exact ih ⟨fp, h1, hex⟩

/-- Claim C3.  Pre-flight checks run before any side effect: `_archive`
returns with the filesystem unchanged when the requested name is invalid
or when an object already exists at the destination archive path, and
`_unarchive` fails with the destination filesystem unchanged (zero writes)
whenever any file entry of the archive collides with an existing object at
its corresponding destination path. -/
theorem preflight_checks (isValid : String → Bool) (fs : FSt) (path : String)
    (name? : Option String) (items : List String) (item : String) (z : FSt) :
    (_get_filename isValid name? ".zip" = none →
      _archive isValid fs path name? items = (fs, some "Invalid archive name")) ∧
    (∀ name, _get_filename isValid name? ".zip" = some name →
      fsExists fs (fsJoin path name) = true →
      _archive isValid fs path name? items =
        (fs, some ("Archive " ++ fsJoin path name ++ " already exists"))) ∧
    (dictGet fs (_abspath item) = some (Node.zipf z) →
      (∃ fp ∈ walkerFiles z, fsExists fs (fsJoin path (lstripSlash fp)) = true) →
      (_unarchive fs path item).1 = fs ∧ ((_unarchive fs path item).2).isSome = true) := by
  refine ⟨?_, ?_, ?_⟩
  · intro hn
    simp only [_archive, hn]
  · intro name hn hex
    simp only [_archive, hn, hex, if_true]
  · intro hz hcol
    have hck := unarchiveCheck_isSome_of_collision fs path (walkerFiles z) hcol
    rcases Option.isSome_iff_exists.mp hck with ⟨err, herr⟩
    refine ⟨?_, ?_⟩ <;> rw [_unarchive] <;> simp [hz, herr]

/-- Witness for `preflight_checks`: an empty-string archive name is
invalid, `/out.zip` already exists on `unzipW`, and unarchiving `/out.zip`
into `/` collides with the existing `/f.txt`. -/
theorem preflight_checks_witness :
    _archive (fun n => !(n == "")) unzipW "/" (some "") [] =
      (unzipW, some "Invalid archive name") ∧
    _archive (fun n => !(n == "")) unzipW "/" (some "out") [] =
      (unzipW, some ("Archive " ++ fsJoin "/" "out.zip" ++ " already exists")) ∧
    (_unarchive unzipW "/" "m1://out.zip").1 = unzipW ∧
    ((_unarchive unzipW "/" "m1://out.zip").2).isSome = true := by
  refine ⟨?_, ?_, ?_⟩
  · exact (preflight_checks (fun n => !(n == "")) unzipW "/" (some "") [] "x" []).1 rfl
  · exact (preflight_checks (fun n => !(n == "")) unzipW "/" (some "out") [] "x" []).2.1
      "out.zip" rfl rfl
  · exact (preflight_checks (fun n => !(n == "")) unzipW "/" (some "out") []
      "m1://out.zip" [("/f.txt", Node.file "new")]).2.2 rfl
      ⟨"/f.txt", by simp [walkerFiles, unzipW, isFileNode], rfl⟩

/-- Claim C6, counterexample.  The claim says the directory-subtree versus
single-file transfer is chosen "by the item's declared type".  The source
chooses by `src_fs.isdir(src_path)` and never reads the `type` field:
moving an item declared `"dir"` whose path is actually a file succeeds as a
file move, while the spec-worded transfer (`transferByType`) fails with
`DirectoryExpected`. -/
theorem transfer_type_field_ignored_cex :
    _transfer true cexW "a" "b://" [TItem.mk "a://f.txt" "dir"] =
      Except.ok [("a", []), ("b", [("/f.txt", Node.file "hi")])] ∧
    transferByType true cexW "a" "b://" [TItem.mk "a://f.txt" "dir"] =
      Except.error "DirectoryExpected" :=
  ⟨rfl, rfl⟩

/-- Claim C6, amended.  For each transfer item the source and destination are
resolved independently by `_split_path` (so they may name different
adapters), the destination path is `combine(dst_dir, basename(src_path))`,
and the directory versus file transfer is chosen by querying
`src_fs.isdir(src_path)` - the declared `type` field is ignored.  Move
removes the source after placing the data; copy leaves the source adapter's
filesystem untouched. -/
theorem transfer_semantics (w : World) (fbKey itemDst p t sk sp dk ddir c : String)
    (hd : _split_path w fbKey itemDst = (dk, ddir))
    (hs : _split_path w fbKey p = (sk, sp))
    (hf : dictGet (wGet w sk) sp = some (Node.file c))
    (hroot : sp ≠ "/")
    (hkk : sk ≠ dk) :
    (∀ t', _transfer true w fbKey itemDst [TItem.mk p t] =
        _transfer true w fbKey itemDst [TItem.mk p t'] ∧
      _transfer false w fbKey itemDst [TItem.mk p t] =
        _transfer false w fbKey itemDst [TItem.mk p t']) ∧
    (∃ w₁, _transfer true w fbKey itemDst [TItem.mk p t] = Except.ok w₁ ∧
      dictGet (wGet w₁ dk) (pyCombine ddir (fsBasename sp)) = some (Node.file c) ∧
      dictGet (wGet w₁ sk) sp = none) ∧
    (∃ w₂, _transfer false w fbKey itemDst [TItem.mk p t] = Except.ok w₂ ∧
      dictGet (wGet w₂ dk) (pyCombine ddir (fsBasename sp)) = some (Node.file c) ∧
      wGet w₂ sk = wGet w sk) := by
  have hdir := fsIsDir_eq_false_of_file (wGet w sk) sp c hf hroot
  refine ⟨fun t' => ⟨rfl, rfl⟩, ?_, ?_⟩
  · refine ⟨wSet (wSet w dk (dictSet (wGet w dk) (pyCombine ddir (fsBasename sp))
      (Node.file c))) sk (dictPop (wGet w sk) sp), ?_, ?_, ?_⟩
    · rw [_transfer]
      simp only [hd]
      rw [transferLoop]
      simp only [hs, hdir, Bool.false_eq_true, if_false, if_true]
      rw [move_file, copy_file]
      simp only [hf, Except.map]
      rw [wGet_wSet_ne w dk sk _ hkk]
      rfl
    · rw [wGet_wSet_ne _ sk dk _ (Ne.symm hkk), wGet_wSet_self, dictGet_dictSet_self]
    · rw [wGet_wSet_self, dictGet_dictPop_self]
  · refine ⟨wSet w dk (dictSet (wGet w dk) (pyCombine ddir (fsBasename sp))
      (Node.file c)), ?_, ?_, ?_⟩
    · rw [_transfer]
      simp only [hd]
      rw [transferLoop]
      simp only [hs, hdir, Bool.false_eq_true, if_false]
      rw [copy_file]
      simp only [hf]
      rfl
    · rw [wGet_wSet_self, dictGet_dictSet_self]
    · rw [wGet_wSet_ne _ dk sk _ hkk]

/-- Witness for `transfer_semantics` on `cexW`: move/copy `a://f.txt` into
`b://`. -/
theorem transfer_semantics_witness :
    (∀ t', _transfer true cexW "a" "b://" [TItem.mk "a://f.txt" "file"] =
        _transfer true cexW "a" "b://" [TItem.mk "a://f.txt" t'] ∧
      _transfer false cexW "a" "b://" [TItem.mk "a://f.txt" "file"] =
        _transfer false cexW "a" "b://" [TItem.mk "a://f.txt" t']) ∧
    (∃ w₁, _transfer true cexW "a" "b://" [TItem.mk "a://f.txt" "file"] = Except.ok w₁ ∧
      dictGet (wGet w₁ "b") (pyCombine "/" (fsBasename "/f.txt")) =
        some (Node.file "hi") ∧
      dictGet (wGet w₁ "a") "/f.txt" = none) ∧
    (∃ w₂, _transfer false cexW "a" "b://" [TItem.mk "a://f.txt" "file"] = Except.ok w₂ ∧
      dictGet (wGet w₂ "b") (pyCombine "/" (fsBasename "/f.txt")) =
        some (Node.file "hi") ∧
      wGet w₂ "a" = wGet cexW "a") :=
  transfer_semantics cexW "a" "b://" "a://f.txt" "file" "a" "/f.txt" "b" "/" "hi"
    rfl rfl rfl (by decide) (by decide)

end Vuefinder
